import Mathlib

/-!
Verification of the local persistence cross-check harness
(`scripts/local_persistence_crosscheck.py`) and of the persistent vector
collection store underneath it described by the specification.

The store itself (collection catalog, segment store with tombstone log,
distance engine) is not part of the repository sources: only the Python
harness that drives it is. Those components are therefore modelled from
the specification, each such definition carrying a doc comment saying so.
The harness-level definitions (`_extract_top_id`, `verify_go_collection`,
`create_python_collection`, `main`) are translated from the Python source.

Embeddings are modelled as lists of rationals: the specification demands
exact, deterministic distance arithmetic, and every embedding the harness
uses is exactly representable.
-/

namespace LocalPersistence

/-- Modelled from the spec (section 7): the named error kinds of the store.
The store is absent from the sources; only its error taxonomy is specified. -/
inductive StoreError where
  | notFound
  | alreadyExists
  | dimensionMismatch
  | corruptRecord
  | ioError
  | lockTimeout
deriving DecidableEq, Repr

instance {ε α : Type} [DecidableEq ε] [DecidableEq α] : DecidableEq (Except ε α) :=
  fun x y =>
    match x, y with
    | .ok a, .ok b =>
      if h : a = b then .isTrue (by rw [h]) else .isFalse (fun hh => h (Except.ok.inj hh))
    | .error e, .error f =>
      if h : e = f then .isTrue (by rw [h]) else .isFalse (fun hh => h (Except.error.inj hh))
    | .ok _, .error _ => .isFalse (fun hh => Except.noConfusion hh)
    | .error _, .ok _ => .isFalse (fun hh => Except.noConfusion hh)

/-- Modelled from the spec (section 3): a record of a collection: id,
optional document, embedding (ordered sequence of numbers). Metadata is
never touched by the harness and is omitted. -/
structure Record where
  id : String
  document : Option String
  embedding : List ℚ
deriving DecidableEq, Repr

/-- Modelled from the spec (sections 3 and 4.2): a segment-store log entry:
either a visible record version (insert or update both append one) or a
tombstone hiding an id. -/
inductive Entry where
  | put (r : Record)
  | tomb (i : String)
deriving DecidableEq, Repr

/-- The id an entry is about. -/
def Entry.key : Entry → String
  | .put r => r.id
  | .tomb i => i

/-- Modelled from the spec (section 4.2, replay): how one log entry updates
the visibility state of the id `i`: a later `put` for `i` overwrites, a
later tombstone for `i` hides, entries for other ids leave it alone. -/
def applyEntry (i : String) (acc : Option Record) (e : Entry) : Option Record :=
  match e with
  | .put r => if r.id = i then some r else acc
  | .tomb j => if j = i then none else acc

/-- Modelled from the spec (sections 3 and 4.2): the latest visible
(non-tombstoned) version of id `i`, obtained by replaying the log in write
order. -/
def liveRecord (log : List Entry) (i : String) : Option Record :=
  log.foldl (applyEntry i) none

/-- Modelled from the spec (section 3): a collection: a fixed dimension and
the append-only log of its record entries. -/
structure Collection where
  dimension : Nat
  log : List Entry
deriving DecidableEq, Repr

/-- Modelled from the spec (section 4.2): the set of distinct ids whose
latest log entry is live. -/
def Collection.liveSet (c : Collection) : Finset String :=
  (c.log.map Entry.key).toFinset.filter (fun i => (liveRecord c.log i).isSome)

/-- Modelled from the spec (section 4.2): `count` = number of distinct ids
with a live (non-tombstoned) latest entry. -/
def Collection.count (c : Collection) : Nat :=
  c.liveSet.card

/-- Modelled from the spec (section 4.2, `scan_latest`): the live records of
a collection, one per live id, derived from the log. -/
def Collection.liveRecords (c : Collection) : List Record :=
  ((c.log.map Entry.key).dedup.filter
    (fun i => (liveRecord c.log i).isSome)).filterMap (liveRecord c.log)

/-- Modelled from the spec (section 4.5): batch point lookup: returns the
live records among the requested ids; absent ids are simply skipped. -/
def Collection.get (c : Collection) (ids : List String) : List Record :=
  ids.filterMap (liveRecord c.log)

/-- Modelled from the spec (section 4.5): single-record `add`: fails with
`DimensionMismatch` on a wrong-length embedding, with `AlreadyExists` on a
live duplicate id (the spec lists the dimension check first), otherwise
appends one insert entry. -/
def Collection.addOne (c : Collection) (r : Record) : Except StoreError Collection :=
  if r.embedding.length ≠ c.dimension then .error .dimensionMismatch
  else if (liveRecord c.log r.id).isSome then .error .alreadyExists
  else .ok { c with log := c.log ++ [.put r] }

/-- Modelled from the spec (sections 4.5 and 7): batch `add`, all-or-nothing:
the batch state is only returned when every record was accepted. -/
def Collection.addBatch (c : Collection) (rs : List Record) : Except StoreError Collection :=
  rs.foldlM Collection.addOne c

/-- Fields supplied to an `update` call; `none` means the field was omitted. -/
structure UpdateFields where
  document : Option String
  embedding : Option (List ℚ)

/-- Modelled from the spec (section 4.5): partial-field `update`: fails with
`NotFound` when the id has no live entry; otherwise reads the current latest
entry, merges the supplied fields over it (omitted fields keep their prior
value), validates the dimension, and appends the merged entry. -/
def Collection.update (c : Collection) (i : String) (u : UpdateFields) :
    Except StoreError Collection :=
  match liveRecord c.log i with
  | none => .error .notFound
  | some r =>
    let emb := u.embedding.getD r.embedding
    if emb.length ≠ c.dimension then .error .dimensionMismatch
    else .ok { c with
      log := c.log ++ [.put { id := i
                              document := match u.document with
                                          | some d => some d
                                          | none => r.document
                              embedding := emb }] }

/-- Modelled from the spec (sections 3 and 4.2): explicit removal of a live
record by appending a tombstone; fails with `NotFound` when the id is not
live. -/
def Collection.remove (c : Collection) (i : String) : Except StoreError Collection :=
  if (liveRecord c.log i).isSome then .ok { c with log := c.log ++ [.tomb i] }
  else .error .notFound

/-- Modelled from the spec (section 4.4): squared Euclidean (L2) distance
between two embeddings, computed exactly. -/
def sqDist (a b : List ℚ) : ℚ :=
  (List.zipWith (fun x y => (x - y) * (x - y)) a b).sum

/-- Lexicographic comparison of two character sequences by code point. -/
def charListLe : List Char → List Char → Bool
  | [], _ => true
  | _ :: _, [] => false
  | c :: cs, d :: ds =>
    if c.val.toNat < d.val.toNat then true
    else if d.val.toNat < c.val.toNat then false
    else charListLe cs ds

/-- Lexicographic order on ids, as the spec's reproducible tie-break. -/
def strLe (a b : String) : Bool := charListLe a.data b.data

/-- Modelled from the spec (section 4.4): the ranking order of the distance
engine on `(id, distance)` pairs: ascending by distance, ties broken by
ascending lexicographic id. -/
abbrev rankLe (p q : String × ℚ) : Prop :=
  p.2 < q.2 ∨ (p.2 = q.2 ∧ strLe p.1 q.1 = true)

/-- Modelled from the spec (section 4.4): `top_k`: score every candidate by
exact distance to the query embedding, sort ascending by distance with ties
broken by ascending id, and keep at most `k`. -/
def top_k (q : List ℚ) (cands : List (String × List ℚ)) (k : Nat) :
    List (String × ℚ) :=
  (List.insertionSort rankLe (cands.map (fun c => (c.1, sqDist q c.2)))).take k

/-- Modelled from the spec (section 4.5): `query`: one ranked result group
per query embedding, in input order, each computed by `top_k` over all live
records of the collection. -/
def Collection.query (c : Collection) (qs : List (List ℚ)) (n : Nat) :
    List (List (String × ℚ)) :=
  qs.map (fun q => top_k q (c.liveRecords.map (fun r => (r.id, r.embedding))) n)

/-- Modelled from the spec (sections 4.3 and 4.6): the persistent store as
seen through one path: the catalog mapping collection names to their
collections. -/
abbrev Store := List (String × Collection)

/-- Modelled from the spec (section 4.3): `resolve`: look a collection up by
name, `NotFound` when absent. -/
def Store.getCollection (s : Store) (name : String) : Except StoreError Collection :=
  match s.lookup name with
  | some c => .ok c
  | none => .error .notFound

/-- Replace the collection stored under `name`. -/
def Store.setCollection (s : Store) (name : String) (c : Collection) : Store :=
  s.map (fun p => if p.1 == name then (name, c) else p)

/-- Modelled from the spec (section 4.3): `create(name, dimension)`: fails
with `AlreadyExists` when the name is taken, otherwise registers an empty
collection of that dimension. -/
def createCollection (s : Store) (name : String) (dim : Nat) :
    Except StoreError Store :=
  if (s.lookup name).isSome then .error .alreadyExists
  else .ok ((name, { dimension := dim, log := [] }) :: s)

/-- Modelled from the spec (section 4.3): `delete(name)` at the store layer:
the store itself reports `NotFound` for an absent name and lets the caller
decide; on success the collection and all its records are removed. -/
def deleteCollection (s : Store) (name : String) : Except StoreError Store :=
  if (s.lookup name).isSome then .ok (s.filter (fun p => !(p.1 == name)))
  else .error .notFound

/-- The query embedding the Go-written collection is probed with
(`GO_QUERY_EMBEDDING = [0.95, 0.05, 0.0]` in the source). -/
def GO_QUERY_EMBEDDING : List ℚ := [19/20, 1/20, 0]

/-- The query embedding the Python-written collection is probed with
(`PY_QUERY_EMBEDDING = [0.05, 0.95, 0.0]` in the source). -/
def PY_QUERY_EMBEDDING : List ℚ := [1/20, 19/20, 0]

/-- The query-result mapping as `_extract_top_id` sees it: the value under
the `ids` key, a list of id groups; `none` models an absent key. -/
structure QueryResult where
  ids : Option (List (List String))
deriving DecidableEq, Repr

/-- From the source: `_extract_top_id`: `query_result.get("ids") or []`
collapses an absent key or a falsy (empty) value to `[]`; an empty first
group likewise yields `""`; otherwise the first id of the first group. -/
def _extract_top_id (qr : QueryResult) : String :=
  let ids := qr.ids.getD []
  match ids with
  | [] => ""
  | firstGroup :: _ =>
    match firstGroup with
    | [] => ""
    | x :: _ => x

/-- The id groups of a query result, as the store's `query` returns them. -/
def idGroups (res : List (List (String × ℚ))) : List (List String) :=
  res.map (fun g => g.map Prod.fst)

/-- A JSON-like value as printed by the harness. -/
inductive JVal where
  | jstr (s : String)
  | jnum (n : Nat)
  | jarr (l : List String)
  | jnull
deriving DecidableEq, Repr

/-- A JSON object: the key-value pairs the harness serializes. -/
abbrev JObj := List (String × JVal)

/-- Modelled from the spec (section 7): the human-readable message `str(exc)`
of a typed store failure. -/
def errString : StoreError → String
  | .notFound => "NotFound"
  | .alreadyExists => "AlreadyExists"
  | .dimensionMismatch => "DimensionMismatch"
  | .corruptRecord => "CorruptRecord"
  | .ioError => "IOError"
  | .lockTimeout => "LockTimeout"

/-- From the source: the ids the Python-side collection is seeded with. -/
def pyIds : List String := ["py-1", "py-2", "py-3"]

/-- From the source: the documents the Python-side collection is seeded with. -/
def pyDocuments : List String :=
  ["python document 1", "python document 2", "python document 3"]

/-- From the source: the embeddings the Python-side collection is seeded with. -/
def pyEmbeddings : List (List ℚ) := [[1, 0, 0], [0, 1, 0], [0, 0, 1]]

/-- The records assembled from the three parallel seed lists. -/
def pyRecords : List Record :=
  (pyIds.zip (pyDocuments.zip pyEmbeddings)).map
    (fun p => { id := p.1, document := some p.2.1, embedding := p.2.2 })

/-- From the source: `verify_go_collection`: resolve the collection, count,
query with `GO_QUERY_EMBEDDING` for 1 result, update record `go-2` with a
new document and embedding `[0,1,0]`, re-read it, and report. -/
def verify_go_collection (s : Store) (name : String) :
    Except StoreError (Store × JObj) := do
  let c ← s.getCollection name
  let count := c.count
  let queryRes := c.query [GO_QUERY_EMBEDDING] 1
  let topId := _extract_top_id { ids := some (idGroups queryRes) }
  let updatedId := "go-2"
  let updatedDocument := "go document 2 updated by python"
  let c2 ← c.update updatedId
    { document := some updatedDocument, embedding := some [0, 1, 0] }
  let s2 := s.setCollection name c2
  let persistedDocument : JVal :=
    match c2.get [updatedId] with
    | [] => .jstr ""
    | r :: _ =>
      match r.document with
      | some d => .jstr d
      | none => .jnull
  .ok (s2,
    [("action", .jstr "verify-go"), ("collection", .jstr name),
     ("count", .jnum count), ("top_id", .jstr topId),
     ("updated_id", .jstr updatedId),
     ("updated_document", persistedDocument)])

/-- From the source: `create_python_collection`: delete any previous
collection of that name swallowing the failure, create it afresh, add the
three seed records, query with `PY_QUERY_EMBEDDING` for 1 result, and
report. -/
def create_python_collection (s : Store) (name : String) :
    Except StoreError (Store × JObj) := do
  let s1 := match deleteCollection s name with
            | .ok t => t
            | .error _ => s
  let s2 ← createCollection s1 name 3
  let c ← s2.getCollection name
  let c2 ← c.addBatch pyRecords
  let s3 := s2.setCollection name c2
  let queryRes := c2.query [PY_QUERY_EMBEDDING] 1
  let topId := _extract_top_id { ids := some (idGroups queryRes) }
  .ok (s3,
    [("action", .jstr "create-python"), ("collection", .jstr name),
     ("count", .jnum c2.count), ("top_id", .jstr topId),
     ("ids", .jarr pyIds)])

/-- The two harness actions accepted by `--action`. -/
inductive HarnessAction where
  | verifyGo
  | createPython
deriving DecidableEq, Repr

/-- The string form of an action, as passed on the command line. -/
def HarnessAction.name : HarnessAction → String
  | .verifyGo => "verify-go"
  | .createPython => "create-python"

/-- Dispatch of `main`'s `if args.action == "verify-go"` branch. -/
def runAction (s : Store) (a : HarnessAction) (name : String) :
    Except StoreError (Store × JObj) :=
  match a with
  | .verifyGo => verify_go_collection s name
  | .createPython => create_python_collection s name

/-- From the source: `main`: run the chosen action; on success print the
result object augmented with `status: success` and return 0; on any failure
print one error object carrying the action, collection name and stringified
failure, and return 1. The first component lists the JSON objects printed
to stdout. -/
def main (s : Store) (a : HarnessAction) (name : String) : List JObj × Nat :=
  match runAction s a name with
  | .ok (_, obj) => ([obj ++ [("status", .jstr "success")]], 0)
  | .error e =>
    ([[("status", .jstr "error"), ("action", .jstr a.name),
       ("collection", .jstr name), ("error", .jstr (errString e))]], 1)

/-! ### Helper lemmas -/

theorem charListLe_total : ∀ a b, charListLe a b = true ∨ charListLe b a = true
  | [], _ => Or.inl rfl
  | _ :: _, [] => Or.inr rfl
  | c :: cs, d :: ds => by
    by_cases h1 : c.val.toNat < d.val.toNat
    · left; simp [charListLe, h1]
    · by_cases h2 : d.val.toNat < c.val.toNat
      · right; simp [charListLe, h2]
      · rcases charListLe_total cs ds with h | h
        · left; simp [charListLe, h1, h2, h]
        · right; simp [charListLe, h1, h2, h]

theorem charListLe_trans :
    ∀ a b c, charListLe a b = true → charListLe b c = true → charListLe a c = true
  | [], _, _ => fun _ _ => rfl
  | _ :: _, [], _ => fun h _ => absurd h (by simp [charListLe])
  | _ :: _, _ :: _, [] => fun _ h => absurd h (by simp [charListLe])
  | x :: xs, y :: ys, z :: zs => by
    intro h1 h2
    simp only [charListLe] at h1 h2 ⊢
    by_cases hxy : x.val.toNat < y.val.toNat
    · by_cases hyz : y.val.toNat < z.val.toNat
      · simp [show x.val.toNat < z.val.toNat by omega]
      · by_cases hzy : z.val.toNat < y.val.toNat
        · rw [if_neg hyz, if_pos hzy] at h2; cases h2
        · simp [show x.val.toNat < z.val.toNat by omega]
    · by_cases hyx : y.val.toNat < x.val.toNat
      · rw [if_neg hxy, if_pos hyx] at h1; cases h1
      · rw [if_neg hxy, if_neg hyx] at h1
        by_cases hyz : y.val.toNat < z.val.toNat
        · simp [show x.val.toNat < z.val.toNat by omega]
        · by_cases hzy : z.val.toNat < y.val.toNat
          · rw [if_neg hyz, if_pos hzy] at h2; cases h2
          · rw [if_neg hyz, if_neg hzy] at h2
            rw [if_neg (show ¬ x.val.toNat < z.val.toNat by omega),
                if_neg (show ¬ z.val.toNat < x.val.toNat by omega)]
            exact charListLe_trans xs ys zs h1 h2

theorem strLe_total (a b : String) : strLe a b = true ∨ strLe b a = true :=
  charListLe_total a.data b.data

theorem strLe_trans {a b c : String} :
    strLe a b = true → strLe b c = true → strLe a c = true :=
  charListLe_trans a.data b.data c.data

theorem rankLe_trans : ∀ a b c : String × ℚ, rankLe a b → rankLe b c → rankLe a c := by
  intro a b c hab hbc
  rcases hab with h1 | ⟨e1, s1⟩ <;> rcases hbc with h2 | ⟨e2, s2⟩
  · exact Or.inl (h1.trans h2)
  · exact Or.inl (e2 ▸ h1)
  · exact Or.inl (e1 ▸ h2)
  · exact Or.inr ⟨e1.trans e2, strLe_trans s1 s2⟩

theorem rankLe_total : ∀ a b : String × ℚ, rankLe a b ∨ rankLe b a := by
  intro a b
  rcases lt_trichotomy a.2 b.2 with h | h | h
  · exact Or.inl (Or.inl h)
  · rcases strLe_total a.1 b.1 with s | s
    · exact Or.inl (Or.inr ⟨h, s⟩)
    · exact Or.inr (Or.inr ⟨h.symm, s⟩)
  · exact Or.inr (Or.inl h)

theorem liveRecord_append (log : List Entry) (e : Entry) (i : String) :
    liveRecord (log ++ [e]) i = applyEntry i (liveRecord log i) e := by
  simp [liveRecord, List.foldl_append]

theorem foldl_applyEntry_isSome :
    ∀ (log : List Entry) (acc : Option Record) (i : String),
      (log.foldl (applyEntry i) acc).isSome = true →
      acc.isSome = true ∨ i ∈ log.map Entry.key := by
  intro log
  induction log with
  | nil => exact fun acc i h => Or.inl h
  | cons e rest ih =>
    intro acc i h
    simp only [List.foldl_cons] at h
    rcases ih _ i h with h' | h'
    · cases e with
      | put r =>
        by_cases hr : r.id = i
        · right; simp [Entry.key, hr]
        · left; simpa [applyEntry, hr] using h'
      | tomb j =>
        by_cases hj : j = i
        · simp [applyEntry, hj] at h'
        · left; simpa [applyEntry, hj] using h'
    · right; simp [h']

theorem liveRecord_isSome_mem {log : List Entry} {i : String}
    (h : (liveRecord log i).isSome = true) : i ∈ log.map Entry.key := by
  rcases foldl_applyEntry_isSome log none i h with h' | h'
  · cases h'
  · exact h'

theorem filter_update_point (K : Finset String) (p : String → Bool) (a : String) (b : Bool) :
    Finset.filter (fun i => (if a = i then b else p i) = true) (insert a K) =
      if b then insert a ((Finset.filter (fun i => p i = true) K).erase a)
      else (Finset.filter (fun i => p i = true) K).erase a := by
  ext j
  by_cases hj : j = a
  · subst hj
    cases b <;> simp
  · have hj' : ¬ a = j := fun h => hj h.symm
    cases b <;> simp [Finset.mem_filter, Finset.mem_insert, Finset.mem_erase, hj, hj']

theorem liveSet_eq (c : Collection) :
    c.liveSet = (c.log.map Entry.key).toFinset.filter
      (fun i => (liveRecord c.log i).isSome = true) := rfl

theorem count_append_put (c : Collection) (r : Record) :
    Collection.count { c with log := c.log ++ [.put r] } =
      if (liveRecord c.log r.id).isSome then c.count else c.count + 1 := by
  classical
  set K := (c.log.map Entry.key).toFinset with hK
  set S := Finset.filter (fun i => (liveRecord c.log i).isSome = true) K with hS
  have hmap : (({ c with log := c.log ++ [.put r] } : Collection).log.map Entry.key).toFinset
      = insert r.id K := by
    simp only [List.map_append, List.toFinset_append, hK]
    ext x
    simp [Entry.key, or_comm]
  have hp' : ∀ i, (liveRecord (c.log ++ [.put r]) i).isSome
      = (if r.id = i then true else (liveRecord c.log i).isSome) := by
    intro i
    rw [liveRecord_append]
    by_cases h : r.id = i <;> simp [applyEntry, h]
  have hfilter : ({ c with log := c.log ++ [.put r] } : Collection).liveSet
      = insert r.id (S.erase r.id) := by
    rw [liveSet_eq, hmap]
    have := Finset.filter_congr (s := insert r.id K)
      (p := fun i => (liveRecord (c.log ++ [.put r]) i).isSome = true)
      (q := fun i => (if r.id = i then true else (liveRecord c.log i).isSome) = true)
      (by intro x _; simp only [hp'])
    rw [this, filter_update_point K (fun i => (liveRecord c.log i).isSome) r.id true]
    simp [hS]
  by_cases hlive : (liveRecord c.log r.id).isSome = true
  · have hmem : r.id ∈ S := by
      rw [hS]
      exact Finset.mem_filter.mpr ⟨by simpa [hK] using liveRecord_isSome_mem hlive, hlive⟩
    rw [if_pos hlive]
    calc Collection.count { c with log := c.log ++ [.put r] }
        = (insert r.id (S.erase r.id)).card := by rw [Collection.count, hfilter]
      _ = (S.erase r.id).card + 1 := Finset.card_insert_of_not_mem (Finset.not_mem_erase _ _)
      _ = (S.card - 1) + 1 := by rw [Finset.card_erase_of_mem hmem]
      _ = S.card := Nat.succ_pred_eq_of_pos (Finset.card_pos.mpr ⟨r.id, hmem⟩)
      _ = c.count := rfl
  · have hnmem : r.id ∉ S := by
      rw [hS]
      intro hm
      exact hlive (Finset.mem_filter.mp hm).2
    rw [if_neg hlive]
    calc Collection.count { c with log := c.log ++ [.put r] }
        = (insert r.id (S.erase r.id)).card := by rw [Collection.count, hfilter]
      _ = (S.erase r.id).card + 1 := Finset.card_insert_of_not_mem (Finset.not_mem_erase _ _)
      _ = S.card + 1 := by rw [Finset.erase_eq_of_not_mem hnmem]
      _ = c.count + 1 := rfl



theorem count_append_tomb (c : Collection) (i : String) :
    Collection.count { c with log := c.log ++ [.tomb i] } =
      if (liveRecord c.log i).isSome then c.count - 1 else c.count := by
  classical
  set K := (c.log.map Entry.key).toFinset with hK
  set S := Finset.filter (fun j => (liveRecord c.log j).isSome = true) K with hS
  have hmap : (({ c with log := c.log ++ [.tomb i] } : Collection).log.map Entry.key).toFinset
      = insert i K := by
    simp only [List.map_append, List.toFinset_append, hK]
    ext x
    simp [Entry.key, or_comm]
  have hp' : ∀ j, (liveRecord (c.log ++ [.tomb i]) j).isSome
      = (if i = j then false else (liveRecord c.log j).isSome) := by
    intro j
    rw [liveRecord_append]
    by_cases h : i = j <;> simp [applyEntry, h]
  have hfilter : ({ c with log := c.log ++ [.tomb i] } : Collection).liveSet
      = S.erase i := by
    rw [liveSet_eq, hmap]
    have := Finset.filter_congr (s := insert i K)
      (p := fun j => (liveRecord (c.log ++ [.tomb i]) j).isSome = true)
      (q := fun j => (if i = j then false else (liveRecord c.log j).isSome) = true)
      (by intro x _; simp only [hp'])
    rw [this, filter_update_point K (fun j => (liveRecord c.log j).isSome) i false]
    simp [hS]
  by_cases hlive : (liveRecord c.log i).isSome = true
  · have hmem : i ∈ S := by
      rw [hS]
      exact Finset.mem_filter.mpr ⟨by simpa [hK] using liveRecord_isSome_mem hlive, hlive⟩
    rw [if_pos hlive]
    calc Collection.count { c with log := c.log ++ [.tomb i] }
        = (S.erase i).card := by rw [Collection.count, hfilter]
      _ = S.card - 1 := Finset.card_erase_of_mem hmem
      _ = c.count - 1 := rfl
  · have hnmem : i ∉ S := by
      rw [hS]
      intro hm
      exact hlive (Finset.mem_filter.mp hm).2
    rw [if_neg hlive]
    calc Collection.count { c with log := c.log ++ [.tomb i] }
        = (S.erase i).card := by rw [Collection.count, hfilter]
      _ = S.card := by rw [Finset.erase_eq_of_not_mem hnmem]
      _ = c.count := rfl

theorem addOne_ok {c : Collection} {r : Record} {c' : Collection}
    (h : c.addOne r = .ok c') :
    r.embedding.length = c.dimension ∧ (liveRecord c.log r.id).isSome = false ∧
    c' = { c with log := c.log ++ [.put r] } := by
  unfold Collection.addOne at h
  by_cases h1 : r.embedding.length ≠ c.dimension
  · rw [if_pos h1] at h; cases h
  · rw [if_neg h1] at h
    by_cases h2 : (liveRecord c.log r.id).isSome
    · rw [if_pos h2] at h; cases h
    · rw [if_neg h2] at h
      cases h
      exact ⟨not_not.mp h1, Bool.not_eq_true _ ▸ eq_false_of_ne_true h2, rfl⟩

theorem update_ok {c : Collection} {i : String} {u : UpdateFields} {r : Record}
    {c' : Collection} (hl : liveRecord c.log i = some r) (h : c.update i u = .ok c') :
    (u.embedding.getD r.embedding).length = c.dimension ∧
    c' = { c with log := c.log ++
      [.put { id := i
              document := match u.document with
                          | some d => some d
                          | none => r.document
              embedding := u.embedding.getD r.embedding }] } := by
  unfold Collection.update at h
  rw [hl] at h
  dsimp only at h
  by_cases h1 : (u.embedding.getD r.embedding).length ≠ c.dimension
  · rw [if_pos h1] at h; cases h
  · rw [if_neg h1] at h
    cases h
    exact ⟨not_not.mp h1, rfl⟩

theorem remove_ok {c : Collection} {i : String} {c' : Collection}
    (h : c.remove i = .ok c') :
    (liveRecord c.log i).isSome = true ∧ c' = { c with log := c.log ++ [.tomb i] } := by
  unfold Collection.remove at h
  by_cases h1 : (liveRecord c.log i).isSome
  · rw [if_pos h1] at h
    cases h
    exact ⟨h1, rfl⟩
  · rw [if_neg h1] at h; cases h

/-! ### Claim theorems -/

theorem lookup_filter_ne (s : Store) (name : String) :
    (s.filter (fun p => !(p.1 == name))).lookup name = none := by
  induction s with
  | nil => rfl
  | cons p rest ih =>
    by_cases h : p.1 = name
    · simp [List.filter_cons, h, ih]
    · have hne : (name == p.1) = false := beq_eq_false_iff_ne.mpr (Ne.symm h)
      simp [List.filter_cons, h, List.lookup, hne, ih]

theorem afterSwallow_lookup_none (s : Store) (name : String) :
    (match deleteCollection s name with | .ok t => t | .error _ => s).lookup name = none := by
  unfold deleteCollection
  by_cases h : (s.lookup name).isSome
  · rw [if_pos h]
    exact lookup_filter_ne s name
  · rw [if_neg h]
    exact Option.not_isSome_iff_eq_none.mp h

/-- Claim C1: a record added with id `i`, embedding `e`, document `d` is
returned unchanged by a subsequent `get([i])` on the resulting store state
(the state any process that has observed the write resolves). -/
theorem add_get_roundtrip (c : Collection) (i : String) (e : List ℚ) (d : String)
    (c' : Collection)
    (h : c.addOne { id := i, document := some d, embedding := e } = .ok c') :
    c'.get [i] = [{ id := i, document := some d, embedding := e }] := by
  obtain ⟨-, -, rfl⟩ := addOne_ok h
  simp [Collection.get, liveRecord_append, applyEntry]

/-- Witness for C1 at a concrete add on the empty collection. -/
theorem add_get_roundtrip_witness :
    ({ dimension := 3,
       log := [.put { id := "x", document := some "doc", embedding := [1, 0, 0] }] } :
      Collection).get ["x"]
      = [{ id := "x", document := some "doc", embedding := [1, 0, 0] }] :=
  add_get_roundtrip { dimension := 3, log := [] } "x" [1, 0, 0] "doc" _ (by decide)

/-- Claim C4: `add` with an embedding whose length differs from the
collection dimension always fails with `DimensionMismatch`, and no new
store state is produced. -/
theorem add_dimension_mismatch (c : Collection) (r : Record)
    (h : r.embedding.length ≠ c.dimension) :
    c.addOne r = .error .dimensionMismatch ∧ ∀ c', c.addOne r ≠ .ok c' := by
  have he : c.addOne r = .error .dimensionMismatch := by
    unfold Collection.addOne
    rw [if_pos h]
  exact ⟨he, fun c' hc => by rw [he] at hc; cases hc⟩

/-- Witness for C4 at a length-2 embedding against a dimension-3 collection. -/
theorem add_dimension_mismatch_witness :
    ({ dimension := 3, log := [] } : Collection).addOne
      { id := "x", document := none, embedding := [1, 0] } = .error .dimensionMismatch :=
  (add_dimension_mismatch _ _ (by decide)).1

/-- Counterexample to C5 as stated: id `x` is live, yet `add` with id `x`
and a wrong-length embedding fails with `DimensionMismatch`, not
`AlreadyExists` (the dimension check is specified first). -/
theorem add_duplicate_counterexample :
    (liveRecord [Entry.put { id := "x", document := some "d", embedding := [1, 0, 0] }]
        "x").isSome = true ∧
    ({ dimension := 3,
       log := [.put { id := "x", document := some "d", embedding := [1, 0, 0] }] } :
        Collection).addOne { id := "x", document := none, embedding := [1, 0] }
      = .error .dimensionMismatch ∧
    ¬ ({ dimension := 3,
         log := [.put { id := "x", document := some "d", embedding := [1, 0, 0] }] } :
        Collection).addOne { id := "x", document := none, embedding := [1, 0] }
      = .error .alreadyExists := by
  refine ⟨by decide, by decide, by decide⟩

/-- Claim C5 (amended): when id `i` is live, `add` with id `i` and an
embedding of the collection dimension fails with `AlreadyExists`; with a
wrong-length embedding it fails with `DimensionMismatch`; in both cases no
new store state is produced. -/
theorem add_duplicate_rejected (c : Collection) (r : Record)
    (h : (liveRecord c.log r.id).isSome = true) :
    (r.embedding.length = c.dimension → c.addOne r = .error .alreadyExists) ∧
    (r.embedding.length ≠ c.dimension → c.addOne r = .error .dimensionMismatch) ∧
    ∀ c', c.addOne r ≠ .ok c' := by
  refine ⟨fun hd => ?_, fun hd => ?_, fun c' hc => ?_⟩
  · unfold Collection.addOne
    rw [if_neg (fun hne => hne hd), if_pos h]
  · unfold Collection.addOne
    rw [if_pos hd]
  · unfold Collection.addOne at hc
    by_cases hd : r.embedding.length ≠ c.dimension
    · rw [if_pos hd] at hc; cases hc
    · rw [if_neg hd, if_pos h] at hc; cases hc

/-- Witness for C5 (amended) at a concrete duplicate add. -/
theorem add_duplicate_rejected_witness :
    ({ dimension := 3,
       log := [.put { id := "x", document := some "d", embedding := [1, 0, 0] }] } :
      Collection).addOne { id := "x", document := some "other", embedding := [0, 1, 0] }
      = .error .alreadyExists :=
  (add_duplicate_rejected _ _ (by decide)).1 (by decide)

/-- Claim C6: `update` changes exactly the supplied fields of the live
record with id `i` (a supplied document replaces the old one, an omitted
embedding keeps its prior value), and leaves every other id untouched. -/
theorem update_partial_frame (c : Collection) (i : String) (u : UpdateFields)
    (r : Record) (c' : Collection)
    (hl : liveRecord c.log i = some r) (h : c.update i u = .ok c') :
    c'.get [i] = [{ id := i
                    document := match u.document with
                                | some d => some d
                                | none => r.document
                    embedding := u.embedding.getD r.embedding }] ∧
    (∀ j, j ≠ i → liveRecord c'.log j = liveRecord c.log j) := by
  obtain ⟨-, rfl⟩ := update_ok hl h
  constructor
  · simp [Collection.get, liveRecord_append, applyEntry]
  · intro j hj
    rw [liveRecord_append]
    simp [applyEntry, Ne.symm hj]

/-- Witness for C6: a document-only update leaves the embedding unchanged. -/
theorem update_partial_frame_witness :
    ({ dimension := 3,
       log := [.put { id := "x", document := some "d1", embedding := [1, 0, 0] },
               .put { id := "x", document := some "d2", embedding := [1, 0, 0] }] } :
      Collection).get ["x"]
      = [{ id := "x", document := some "d2", embedding := [1, 0, 0] }] :=
  (update_partial_frame
    { dimension := 3, log := [.put { id := "x", document := some "d1", embedding := [1, 0, 0] }] }
    "x" { document := some "d2", embedding := none }
    { id := "x", document := some "d1", embedding := [1, 0, 0] } _
    (by decide) (by decide)).1

/-- Claim C8: `count` is incremented exactly by a successful add,
decremented exactly by a successful removal, and left unchanged by any
successful update, so it always equals the number of distinct ids added
minus those removed — the number of ids whose latest entry is live. -/
theorem count_invariant :
    (∀ (c : Collection) (i : String) (u : UpdateFields) (c' : Collection),
        c.update i u = .ok c' → c'.count = c.count) ∧
    (∀ (c : Collection) (r : Record) (c' : Collection),
        c.addOne r = .ok c' → c'.count = c.count + 1) ∧
    (∀ (c : Collection) (i : String) (c' : Collection),
        c.remove i = .ok c' → c'.count + 1 = c.count) := by
  refine ⟨?_, ?_, ?_⟩
  · intro c i u c' h
    cases hl : liveRecord c.log i with
    | none => unfold Collection.update at h; rw [hl] at h; cases h
    | some r =>
      obtain ⟨-, rfl⟩ := update_ok hl h
      rw [count_append_put, if_pos (by simp [hl])]
  · intro c r c' h
    obtain ⟨-, hn, rfl⟩ := addOne_ok h
    rw [count_append_put, if_neg (by simp [hn])]
  · intro c i c' h
    obtain ⟨hl, rfl⟩ := remove_ok h
    rw [count_append_tomb, if_pos hl]
    have hmem : i ∈ c.liveSet :=
      Finset.mem_filter.mpr ⟨by simpa using liveRecord_isSome_mem hl, hl⟩
    have hpos : 0 < c.count := Finset.card_pos.mpr ⟨i, hmem⟩
    omega

/-- Witness for C8 at a concrete add on the empty collection. -/
theorem count_invariant_witness :
    ({ dimension := 3,
       log := [.put { id := "x", document := none, embedding := [1, 0, 0] }] } :
      Collection).count = ({ dimension := 3, log := [] } : Collection).count + 1 :=
  count_invariant.2.1 { dimension := 3, log := [] }
    { id := "x", document := none, embedding := [1, 0, 0] } _ (by decide)

/-- Claim C9: `_extract_top_id` is total: it returns `""` when the `ids`
key is absent or falsy or the first group is empty, and the first id of the
first group otherwise. -/
theorem extract_top_id_total (qr : QueryResult) :
    ((qr.ids = none ∨ qr.ids = some []) → _extract_top_id qr = "") ∧
    (∀ rest, qr.ids = some ([] :: rest) → _extract_top_id qr = "") ∧
    (∀ x g rest, qr.ids = some ((x :: g) :: rest) → _extract_top_id qr = x) := by
  obtain ⟨ids⟩ := qr
  refine ⟨?_, ?_, ?_⟩
  · rintro (h | h) <;> (simp only [QueryResult.mk.injEq] at h; subst h; rfl)
  · rintro rest h
    simp only [QueryResult.mk.injEq] at h
    subst h
    rfl
  · rintro x g rest h
    simp only [QueryResult.mk.injEq] at h
    subst h
    rfl

/-- Witness for C9 at an absent `ids` key. -/
theorem extract_top_id_total_witness : _extract_top_id { ids := none } = "" :=
  (extract_top_id_total { ids := none }).1 (Or.inl rfl)

unseal Rat.mul Rat.sub Rat.add Rat.inv in
theorem queryAbcGo_eval :
    idGroups
      (({ dimension := 3,
          log := [.put { id := "a", document := none, embedding := [1, 0, 0] },
                  .put { id := "b", document := none, embedding := [0, 1, 0] },
                  .put { id := "c", document := none, embedding := [0, 0, 1] }] } :
        Collection).query [GO_QUERY_EMBEDDING] 1) = [["a"]] := by decide

unseal Rat.mul Rat.sub Rat.add Rat.inv in
theorem queryAbcPy_eval :
    idGroups
      (({ dimension := 3,
          log := [.put { id := "a", document := none, embedding := [1, 0, 0] },
                  .put { id := "b", document := none, embedding := [0, 1, 0] },
                  .put { id := "c", document := none, embedding := [0, 0, 1] }] } :
        Collection).query [PY_QUERY_EMBEDDING] 1) = [["b"]] := by decide

/-- Claim C2: with exactly the three unit-direction embeddings at ids `a`,
`b`, `c`, querying `[0.95, 0.05, 0]` with `n_results = 1` returns `a`, and
querying `[0.05, 0.95, 0]` returns `b`. -/
theorem query_ordering_abc :
    idGroups
      (({ dimension := 3,
          log := [.put { id := "a", document := none, embedding := [1, 0, 0] },
                  .put { id := "b", document := none, embedding := [0, 1, 0] },
                  .put { id := "c", document := none, embedding := [0, 0, 1] }] } :
        Collection).query [GO_QUERY_EMBEDDING] 1) = [["a"]] ∧
    idGroups
      (({ dimension := 3,
          log := [.put { id := "a", document := none, embedding := [1, 0, 0] },
                  .put { id := "b", document := none, embedding := [0, 1, 0] },
                  .put { id := "c", document := none, embedding := [0, 0, 1] }] } :
        Collection).query [PY_QUERY_EMBEDDING] 1) = [["b"]] :=
  ⟨queryAbcGo_eval, queryAbcPy_eval⟩

/-- Claim C3: `top_k` returns at most `k` pairs, sorted ascending by
distance with ties broken by ascending id; with `k` at least the candidate
count it returns all scored candidates sorted; on an empty candidate set it
returns the empty sequence. -/
theorem top_k_contract (q : List ℚ) (cands : List (String × List ℚ)) (k : Nat) :
    (top_k q cands k).length ≤ k ∧
    (top_k q cands k).Sorted rankLe ∧
    (cands.length ≤ k →
      (top_k q cands k).Perm (cands.map (fun p => (p.1, sqDist q p.2)))) ∧
    (cands = [] → top_k q cands k = []) := by
  haveI : IsTrans (String × ℚ) rankLe := ⟨rankLe_trans⟩
  haveI : IsTotal (String × ℚ) rankLe := ⟨rankLe_total⟩
  refine ⟨?_, ?_, ?_, ?_⟩
  · unfold top_k
    exact List.length_take_le _ _
  · unfold top_k
    exact (List.sorted_insertionSort rankLe _).sublist (List.take_sublist _ _)
  · intro hk
    unfold top_k
    rw [List.take_of_length_le]
    · exact List.perm_insertionSort rankLe _
    · rw [(List.perm_insertionSort rankLe _).length_eq, List.length_map]
      exact hk
  · rintro rfl
    simp [top_k]

/-- Witness for C3 at the empty candidate set. -/
theorem top_k_contract_witness : top_k [0] [] 5 = [] :=
  (top_k_contract [0] [] 5).2.2.2 rfl

/-- Claim C7: deleting an absent collection fails with `NotFound` at the
store layer, while `create_python_collection` swallows that failure and
succeeds whether or not the collection previously existed. -/
theorem delete_nonexistent_layering (s : Store) (name : String) :
    (s.lookup name = none → deleteCollection s name = .error .notFound) ∧
    (∃ s' res, create_python_collection s name = .ok (s', res)) := by
  constructor
  · intro h
    unfold deleteCollection
    rw [if_neg (by simp [h])]
  · have h1 : (match deleteCollection s name with
        | .ok t => t
        | .error _ => s).lookup name = none := afterSwallow_lookup_none s name
    have h2 : createCollection (match deleteCollection s name with
          | .ok t => t
          | .error _ => s) name 3
        = .ok ((name, { dimension := 3, log := [] }) :: (match deleteCollection s name with
          | .ok t => t
          | .error _ => s)) := by
      unfold createCollection
      rw [if_neg (by simp [h1])]
    have h4 : ({ dimension := 3, log := [] } : Collection).addBatch pyRecords
        = .ok { dimension := 3, log := pyRecords.map Entry.put } := by decide
    have hrun : ∃ pr, create_python_collection s name = .ok pr := by
      simp only [create_python_collection]
      rw [h2]
      simp only [bind, Except.bind, Store.getCollection, List.lookup, beq_self_eq_true]
      rw [h4]
      exact ⟨_, rfl⟩
    obtain ⟨⟨s', res⟩, hpr⟩ := hrun
    exact ⟨s', res, hpr⟩

/-- Witness for C7 on the empty store. -/
theorem delete_nonexistent_layering_witness :
    deleteCollection [] "c" = .error .notFound :=
  (delete_nonexistent_layering [] "c").1 rfl

/-- Claim C10: `main` prints exactly one JSON object: on success the
action result tagged `status: success` with exit code 0, on failure an
error object carrying the action, collection and stringified failure with
exit code 1. -/
theorem main_output_contract (s : Store) (a : HarnessAction) (name : String) :
    ∃ obj, (main s a name).1 = [obj] ∧
      (((main s a name).2 = 0 ∧ ("status", JVal.jstr "success") ∈ obj ∧
          ∃ st res, runAction s a name = .ok (st, res) ∧
            obj = res ++ [("status", JVal.jstr "success")]) ∨
        ((main s a name).2 = 1 ∧ ("status", JVal.jstr "error") ∈ obj ∧
          ("action", JVal.jstr a.name) ∈ obj ∧
          ("collection", JVal.jstr name) ∈ obj ∧
          ∃ e, runAction s a name = .error e ∧
            ("error", JVal.jstr (errString e)) ∈ obj)) := by
  cases h : runAction s a name with
  | ok p =>
    obtain ⟨st, res⟩ := p
    refine ⟨res ++ [("status", JVal.jstr "success")], by simp [main, h], ?_⟩
    exact Or.inl ⟨by simp [main, h], by simp, st, res, rfl, rfl⟩
  | error e =>
    refine ⟨[("status", JVal.jstr "error"), ("action", JVal.jstr a.name),
      ("collection", JVal.jstr name), ("error", JVal.jstr (errString e))],
      by simp [main, h], ?_⟩
    exact Or.inr ⟨by simp [main, h], by simp, by simp, by simp, e, rfl, by simp⟩

end LocalPersistence
